import Mathlib

/-!
Verification of the AntiHub-ALL database bootstrap scripts and of the
migration-coordinator design described in the repository's merge plan.

The bootstrap scripts (`docker/postgres/sync-db.sh`, the plugin variant, and
the inline heredoc in `deploy.sh`) are psql sessions whose statements are
generated with `format(...) \gexec`.  We embed the Postgres cluster state the
scripts touch (roles with passwords, databases with owners, database / schema
grants, default privileges, extensions, and per-database tables with rows)
and each script as a list of statement generators executed with fail-fast
semantics (`set -e` + `ON_ERROR_STOP=1`).

PostgreSQL semantics are modelled faithfully where the claims depend on them;
in particular `ALTER DEFAULT PRIVILEGES` without a `FOR ROLE` clause applies
only to objects later created by the role executing the statement.
-/

namespace AntiHub

/-- Association-list lookup (first binding wins), generic in the key type. -/
def lookupA {κ α : Type} [DecidableEq κ] (k : κ) : List (κ × α) → Option α
  | [] => none
  | (k', v) :: rest => if k' = k then some v else lookupA k rest

/-- Association-list update: overwrite the first binding of `k` in place, or
append a new binding when `k` is absent.  Mirrors a catalog update: row order
is preserved, so re-writing an identical value leaves the catalog unchanged. -/
def setA {κ α : Type} [DecidableEq κ] (k : κ) (v : α) : List (κ × α) → List (κ × α)
  | [] => [(k, v)]
  | (k', v') :: rest => if k' = k then (k, v) :: rest else (k', v') :: setA k v rest

/-- Insert an element into a set represented as a list, keeping it unchanged
when the element is already present (`GRANT` is idempotent in the catalog). -/
def insertIfAbsent {α : Type} [DecidableEq α] (x : α) (l : List α) : List α :=
  if x ∈ l then l else l ++ [x]

/-- Object kinds covered by `ALTER DEFAULT PRIVILEGES ... ON <kind>`. -/
inductive ObjKind
  | tables
  | sequences
deriving DecidableEq, Repr

/-- A user table inside one database: its name, the roles holding privileges
on it, and its rows (opaque payloads — only preservation matters here). -/
structure Table where
  name : String
  acl : List String
  rows : List String
deriving DecidableEq, Repr

/-- The part of a Postgres cluster's state the bootstrap scripts interact
with.  `roles` maps role name to password; `databases` maps database name to
owning role; `defaultPrivs` entries are
(database, schema, creator role, object kind, grantee). -/
structure ClusterState where
  roles : List (String × String)
  databases : List (String × String)
  dbGrants : List (String × String)
  schemaGrants : List (String × String × String)
  defaultPrivs : List (String × String × String × ObjKind × String)
  extensions : List ((String × String) × String)
  tables : List (String × List Table)
deriving DecidableEq, Repr

def roleExists (st : ClusterState) (u : String) : Bool :=
  (lookupA u st.roles).isSome

def dbExists (st : ClusterState) (d : String) : Bool :=
  (lookupA d st.databases).isSome

/-- The primitive SQL statements the three scripts can emit via `\gexec`
(plus `CREATE EXTENSION IF NOT EXISTS`, written literally).  The scripts
contain no `DROP` of any kind, so none is representable.
`alterDefaultPrivs` records the session role that executed it, because
PostgreSQL scopes the default-privilege change to objects later created by
that role. -/
inductive Atom
  | alterUserPassword (u p : String)
  | createUser (u p : String)
  | createDatabase (d owner : String)
  | alterDatabaseOwner (d owner : String)
  | grantAllOnDatabase (d r : String)
  | grantAllOnSchema (d sch r : String)
  | alterDefaultPrivs (d sch creator : String) (k : ObjKind) (grantee : String)
  | createExtensionIfAbsent (d e sch : String)
deriving DecidableEq, Repr

inductive PgErr
  | roleNotFound (u : String)
  | duplicateRole (u : String)
  | duplicateDatabase (d : String)
  | databaseNotFound (d : String)
  | connectionFailed
deriving DecidableEq, Repr

/-- Execute one SQL statement against the cluster, with PostgreSQL's
success/failure conditions. -/
def execAtom (st : ClusterState) : Atom → Except PgErr ClusterState
  | .alterUserPassword u p =>
      if roleExists st u then .ok { st with roles := setA u p st.roles }
      else .error (.roleNotFound u)
  | .createUser u p =>
      if roleExists st u then .error (.duplicateRole u)
      else .ok { st with roles := setA u p st.roles }
  | .createDatabase d owner =>
      if dbExists st d then .error (.duplicateDatabase d)
      else if roleExists st owner then
        .ok { st with databases := setA d owner st.databases,
                      tables := setA d [] st.tables }
      else .error (.roleNotFound owner)
  | .alterDatabaseOwner d owner =>
      if dbExists st d then
        if roleExists st owner then
          .ok { st with databases := setA d owner st.databases }
        else .error (.roleNotFound owner)
      else .error (.databaseNotFound d)
  | .grantAllOnDatabase d r =>
      if dbExists st d then
        if roleExists st r then
          .ok { st with dbGrants := insertIfAbsent (d, r) st.dbGrants }
        else .error (.roleNotFound r)
      else .error (.databaseNotFound d)
  | .grantAllOnSchema d sch r =>
      if roleExists st r then
        .ok { st with schemaGrants := insertIfAbsent (d, sch, r) st.schemaGrants }
      else .error (.roleNotFound r)
  | .alterDefaultPrivs d sch creator k grantee =>
      if roleExists st grantee then
        .ok { st with defaultPrivs :=
                insertIfAbsent (d, sch, creator, k, grantee) st.defaultPrivs }
      else .error (.roleNotFound grantee)
  | .createExtensionIfAbsent d e sch =>
      if (lookupA (d, e) st.extensions).isSome then .ok st
      else .ok { st with extensions := st.extensions ++ [((d, e), sch)] }

/-- Execute a list of statements in order, stopping at the first failure;
on success also return the statements that were executed. -/
def execAtoms : ClusterState → List Atom → Except PgErr (ClusterState × List Atom)
  | st, [] => .ok (st, [])
  | st, a :: rest =>
      match execAtom st a with
      | .error e => .error e
      | .ok st' =>
          match execAtoms st' rest with
          | .error e => .error e
          | .ok (st'', as) => .ok (st'', a :: as)

/-- One heredoc line: a statement generator (`SELECT format(...) \gexec`),
producing the statements to run from the current catalog state. -/
def Line : Type := ClusterState → List Atom

/-- Execute a psql heredoc: each line generates statements from the current
state and runs them; `ON_ERROR_STOP=1` aborts the whole session at the first
failing statement. -/
def execScript : ClusterState → List Line → Except PgErr (ClusterState × List Atom)
  | st, [] => .ok (st, [])
  | st, l :: ls =>
      match execAtoms st (l st) with
      | .error e => .error e
      | .ok (st', as) =>
          match execScript st' ls with
          | .error e => .error e
          | .ok (st'', as') => .ok (st'', as ++ as')

/-- psql connection succeeds when the connecting role exists with the
supplied password and the target database exists. -/
def connOk (st : ClusterState) (u p d : String) : Bool :=
  (lookupA u st.roles == some p) && dbExists st d

/-- A psql session: check the connection first, then run the heredoc.  A
connection failure is reported before any statement is attempted. -/
def psqlRun (st : ClusterState) (u p d : String) (script : List Line) :
    Except PgErr (ClusterState × List Atom) :=
  if connOk st u p d then execScript st script else .error .connectionFailed

/-- Configuration of `docker/postgres/sync-db.sh` and of the deploy.sh
heredoc: primary role, its password, primary database. -/
structure BackendCfg where
  suUser : String
  suPass : String
  mainDb : String

/-- `SELECT format('ALTER USER %I WITH PASSWORD %L', ...) \gexec` —
unconditional. -/
def lineAlterSuPass (cfg : BackendCfg) : Line :=
  fun _ => [.alterUserPassword cfg.suUser cfg.suPass]

/-- `SELECT CASE WHEN EXISTS (pg_database main_db) THEN ALTER DATABASE OWNER
ELSE CREATE DATABASE END \gexec` (sync-db.sh lines 30–35). -/
def lineCaseMainDb (cfg : BackendCfg) : Line :=
  fun st =>
    if dbExists st cfg.mainDb then [.alterDatabaseOwner cfg.mainDb cfg.suUser]
    else [.createDatabase cfg.mainDb cfg.suUser]

/-- The sync-db.sh heredoc. -/
def syncDbScript (cfg : BackendCfg) : List Line :=
  [lineAlterSuPass cfg, lineCaseMainDb cfg]

/-- Running sync-db.sh: connect to database `postgres` as the primary role
with the configured password, then run the heredoc. -/
def syncDbRun (cfg : BackendCfg) (st : ClusterState) :
    Except PgErr (ClusterState × List Atom) :=
  psqlRun st cfg.suUser cfg.suPass "postgres" (syncDbScript cfg)

/-- `SELECT format('CREATE DATABASE ...') WHERE NOT EXISTS (...) \gexec`
from the deploy.sh heredoc: generates nothing when the database exists. -/
def lineCreateMainDbIfAbsent (cfg : BackendCfg) : Line :=
  fun st =>
    if dbExists st cfg.mainDb then [] else [.createDatabase cfg.mainDb cfg.suUser]

/-- `SELECT format('ALTER DATABASE ... OWNER TO ...') WHERE EXISTS (...)
\gexec` from the deploy.sh heredoc. -/
def lineAlterMainDbOwnerIfPresent (cfg : BackendCfg) : Line :=
  fun st =>
    if dbExists st cfg.mainDb then [.alterDatabaseOwner cfg.mainDb cfg.suUser] else []

/-- The deploy.sh database-init heredoc (deploy.sh lines 349–360). -/
def deployDbInitScript (cfg : BackendCfg) : List Line :=
  [lineAlterSuPass cfg, lineCreateMainDbIfAbsent cfg, lineAlterMainDbOwnerIfPresent cfg]

/-- Running the deploy.sh heredoc.  It is executed with
`compose exec -T postgres psql`, i.e. inside the database container over the
local socket, so no password authentication is involved; the statement
sequence is what we compare with sync-db.sh. -/
def deployDbInitRun (cfg : BackendCfg) (st : ClusterState) :
    Except PgErr (ClusterState × List Atom) :=
  execScript st (deployDbInitScript cfg)

/-- Configuration of the plugin bootstrap script (`src/unnamed/part_000`):
the backend primary settings plus the plugin role/database. -/
structure PluginCfg extends BackendCfg where
  pluginUser : String
  pluginPass : String
  pluginDb : String

/-- `SELECT CASE WHEN EXISTS (pg_roles plugin_user) THEN ALTER USER ELSE
CREATE USER END \gexec`. -/
def lineCasePluginUser (cfg : PluginCfg) : Line :=
  fun st =>
    if roleExists st cfg.pluginUser then
      [.alterUserPassword cfg.pluginUser cfg.pluginPass]
    else [.createUser cfg.pluginUser cfg.pluginPass]

/-- `SELECT CASE WHEN EXISTS (pg_database plugin_db) THEN ALTER DATABASE
OWNER ELSE CREATE DATABASE END \gexec`. -/
def lineCasePluginDb (cfg : PluginCfg) : Line :=
  fun st =>
    if dbExists st cfg.pluginDb then
      [.alterDatabaseOwner cfg.pluginDb cfg.pluginUser]
    else [.createDatabase cfg.pluginDb cfg.pluginUser]

/-- `SELECT format('GRANT ALL PRIVILEGES ON DATABASE %I TO %I', ...) \gexec`. -/
def lineGrantPluginDb (cfg : PluginCfg) : Line :=
  fun _ => [.grantAllOnDatabase cfg.pluginDb cfg.pluginUser]

/-- First psql heredoc of part_000 (connected to database `postgres`). -/
def pluginSession1 (cfg : PluginCfg) : List Line :=
  [lineAlterSuPass cfg.toBackendCfg, lineCaseMainDb cfg.toBackendCfg,
   lineCasePluginUser cfg, lineCasePluginDb cfg, lineGrantPluginDb cfg]

/-- Second psql heredoc of part_000, connected to the plugin database as the
primary role: schema grant, two `ALTER DEFAULT PRIVILEGES` (executed by the
primary role, hence scoped to objects it later creates), and
`CREATE EXTENSION IF NOT EXISTS "uuid-ossp" WITH SCHEMA public`. -/
def pluginSession2 (cfg : PluginCfg) : List Line :=
  [fun _ => [.grantAllOnSchema cfg.pluginDb "public" cfg.pluginUser],
   fun _ => [.alterDefaultPrivs cfg.pluginDb "public" cfg.suUser .tables cfg.pluginUser],
   fun _ => [.alterDefaultPrivs cfg.pluginDb "public" cfg.suUser .sequences cfg.pluginUser],
   fun _ => [.createExtensionIfAbsent cfg.pluginDb "uuid-ossp" "public"]]

/-- Running the whole plugin bootstrap script: both psql sessions in order,
aborting at the first failure (`set -e`). -/
def syncPluginRun (cfg : PluginCfg) (st : ClusterState) :
    Except PgErr (ClusterState × List Atom) :=
  match psqlRun st cfg.suUser cfg.suPass "postgres" (pluginSession1 cfg) with
  | .error e => .error e
  | .ok (st1, a1) =>
      match psqlRun st1 cfg.suUser cfg.suPass cfg.pluginDb (pluginSession2 cfg) with
      | .error e => .error e
      | .ok (st2, a2) => .ok (st2, a1 ++ a2)

/-- `CREATE TABLE` issued later by `creator` in schema `sch` of database `d`:
the new table is owned by its creator, and PostgreSQL additionally applies
the default privileges recorded for (database, schema, creator, TABLES) —
this is how `ALTER DEFAULT PRIVILEGES` reaches future objects. -/
def createTable (st : ClusterState) (d sch creator tname : String) : ClusterState :=
  let grantees :=
    (st.defaultPrivs.filter fun e =>
      e.1 = d ∧ e.2.1 = sch ∧ e.2.2.1 = creator ∧ e.2.2.2.1 = ObjKind.tables).map
      fun e => e.2.2.2.2
  let t : Table := { name := tname, acl := creator :: grantees, rows := [] }
  { st with tables := setA d ((lookupA d st.tables).getD [] ++ [t]) st.tables }

/-- The roles granted privileges on table `tname` of database `d` (its ACL),
empty when the table does not exist. -/
def tableAcl (st : ClusterState) (d tname : String) : List String :=
  match ((lookupA d st.tables).getD []).find? fun t => t.name = tname with
  | some t => t.acl
  | none => []

/-! ### Basic lemmas about the catalog representation -/

theorem lookupA_setA_self {κ α : Type} [DecidableEq κ] (k : κ) (v : α)
    (l : List (κ × α)) : lookupA k (setA k v l) = some v := by
  induction l with
  | nil => simp [setA, lookupA]
  | cons hd tl ih =>
      obtain ⟨k', v'⟩ := hd
      by_cases h : k' = k <;> simp [setA, h, lookupA, ih]

theorem lookupA_setA_ne {κ α : Type} [DecidableEq κ] {k k' : κ} (v : α)
    (l : List (κ × α)) (h : k' ≠ k) : lookupA k (setA k' v l) = lookupA k l := by
  induction l with
  | nil => simp [setA, lookupA, h]
  | cons hd tl ih =>
      obtain ⟨k'', v''⟩ := hd
      by_cases h2 : k'' = k' <;> simp [setA, h2, lookupA, ih]
      · subst h2; simp [h, lookupA]

theorem setA_eq_of_lookupA {κ α : Type} [DecidableEq κ] {k : κ} {v : α}
    {l : List (κ × α)} (h : lookupA k l = some v) : setA k v l = l := by
  induction l with
  | nil => simp [lookupA] at h
  | cons hd tl ih =>
      obtain ⟨k', v'⟩ := hd
      by_cases h2 : k' = k
      · subst h2
        simp [lookupA] at h
        simp [setA, h]
      · simp [lookupA, h2] at h
        simp [setA, h2, ih h]

theorem lookupA_isSome_setA {κ α : Type} [DecidableEq κ] {k : κ} (k' : κ) (v : α)
    {l : List (κ × α)} (h : (lookupA k l).isSome = true) :
    (lookupA k (setA k' v l)).isSome = true := by
  by_cases h2 : k' = k
  · subst h2; simp [lookupA_setA_self]
  · rwa [lookupA_setA_ne v l h2]

theorem mem_insertIfAbsent_self {α : Type} [DecidableEq α] (x : α) (l : List α) :
    x ∈ insertIfAbsent x l := by
  unfold insertIfAbsent
  split
  · assumption
  · simp

theorem insertIfAbsent_eq_of_mem {α : Type} [DecidableEq α] {x : α} {l : List α}
    (h : x ∈ l) : insertIfAbsent x l = l := by
  simp [insertIfAbsent, h]

theorem mem_insertIfAbsent_of_mem {α : Type} [DecidableEq α] {x y : α} {l : List α}
    (h : x ∈ l) : x ∈ insertIfAbsent y l := by
  unfold insertIfAbsent
  split
  · assumption
  · simp [h]

/-! ### Fail-fast structure of the executor -/

theorem execAtoms_append_error {st : ClusterState} {as1 : List Atom}
    (as2 : List Atom) {e : PgErr} (h : execAtoms st as1 = .error e) :
    execAtoms st (as1 ++ as2) = .error e := by
  induction as1 generalizing st with
  | nil => simp [execAtoms] at h
  | cons a rest ih =>
      simp only [List.cons_append, execAtoms] at h ⊢
      cases hA : execAtom st a with
      | error e' => simp [hA] at h ⊢; exact h
      | ok st' =>
          simp only [hA] at h ⊢
          cases hR : execAtoms st' rest with
          | error e' =>
              simp [hR] at h
              subst h
              simp [ih hR]
          | ok p => simp [hR] at h

theorem execScript_append_error {st : ClusterState} {ls1 : List Line}
    (ls2 : List Line) {e : PgErr} (h : execScript st ls1 = .error e) :
    execScript st (ls1 ++ ls2) = .error e := by
  induction ls1 generalizing st with
  | nil => simp [execScript] at h
  | cons l rest ih =>
      simp only [List.cons_append, execScript] at h ⊢
      cases hA : execAtoms st (l st) with
      | error e' => simp [hA] at h ⊢; exact h
      | ok p =>
          obtain ⟨st', as⟩ := p
          simp only [hA] at h ⊢
          cases hR : execScript st' rest with
          | error e' =>
              simp [hR] at h
              subst h
              simp [ih hR]
          | ok p' => simp [hR] at h

/-! ### Claim C1 -/

/-- **C1.** For every starting state, when the primary database already
exists a successful run of sync-db.sh issues exactly the unconditional
password `ALTER USER` followed by `ALTER DATABASE ... OWNER TO` — no
`CREATE DATABASE` (and no drop: none is even expressible, the scripts
contain none) — the whole table catalog (every pre-existing table and its
rows) is unchanged, and the database ends up owned by the primary role.
Only when the database is absent is `CREATE DATABASE ... OWNER` issued. -/
theorem syncDb_preserves_existing_primary_db (cfg : BackendCfg)
    (st st' : ClusterState) (tr : List Atom)
    (h : syncDbRun cfg st = .ok (st', tr)) :
    (dbExists st cfg.mainDb = true →
      tr = [.alterUserPassword cfg.suUser cfg.suPass,
            .alterDatabaseOwner cfg.mainDb cfg.suUser] ∧
      st'.tables = st.tables ∧
      lookupA cfg.mainDb st'.databases = some cfg.suUser) ∧
    (dbExists st cfg.mainDb = false →
      tr = [.alterUserPassword cfg.suUser cfg.suPass,
            .createDatabase cfg.mainDb cfg.suUser] ∧
      lookupA cfg.mainDb st'.databases = some cfg.suUser) := by
  unfold syncDbRun psqlRun at h
  by_cases hc : connOk st cfg.suUser cfg.suPass "postgres" = true
  · simp only [if_pos hc] at h
    simp only [connOk, Bool.and_eq_true, beq_iff_eq] at hc
    obtain ⟨hpass, hpg⟩ := hc
    simp only [syncDbScript, execScript, execAtoms, lineAlterSuPass,
      lineCaseMainDb, execAtom, roleExists, hpass, Option.isSome_some,
      if_true] at h
    by_cases hdb : (lookupA cfg.mainDb st.databases).isSome = true
    · simp only [dbExists, hdb, if_true, execAtoms, execAtom, roleExists,
        lookupA_setA_self, Option.isSome_some, List.append_nil,
        List.singleton_append] at h
      rw [Except.ok.injEq, Prod.mk.injEq] at h
      obtain ⟨hst, htr⟩ := h
      refine ⟨fun _ => ⟨htr.symm, ?_, ?_⟩, fun hf => ?_⟩
      · rw [← hst]
      · rw [← hst]; exact lookupA_setA_self ..
      · simp [dbExists, hdb] at hf
    · simp only [dbExists, hdb, if_false, Bool.false_eq_true, execAtoms,
        execAtom, roleExists, lookupA_setA_self, Option.isSome_some,
        if_true, List.append_nil, List.singleton_append] at h
      rw [Except.ok.injEq, Prod.mk.injEq] at h
      obtain ⟨hst, htr⟩ := h
      refine ⟨fun ht => ?_, fun _ => ⟨htr.symm, ?_⟩⟩
      · simp [dbExists, hdb] at ht
      · rw [← hst]; exact lookupA_setA_self ..
  · simp [if_neg hc] at h

/-- Demo configuration: the script defaults (`antihub`). -/
def demoCfg : BackendCfg :=
  { suUser := "antihub", suPass := "p1", mainDb := "antihub" }

/-- Demo starting state: the primary database already exists, owned by a
different role, and contains a table with rows. -/
def demoSt : ClusterState :=
  { roles := [("antihub", "p1"), ("legacy_owner", "p0"), ("bob", "pb")]
    databases := [("postgres", "antihub"), ("antihub", "legacy_owner")]
    dbGrants := []
    schemaGrants := []
    defaultPrivs := []
    extensions := []
    tables := [("antihub",
      [{ name := "t0", acl := ["legacy_owner"], rows := ["row1", "row2"] }])] }

/-- The state sync-db.sh produces from `demoSt` (projection of the run). -/
def demoC1St : ClusterState :=
  match syncDbRun demoCfg demoSt with
  | .ok (s, _) => s
  | .error _ => demoSt

/-- The statement trace sync-db.sh produces from `demoSt`. -/
def demoC1Tr : List Atom :=
  match syncDbRun demoCfg demoSt with
  | .ok (_, t) => t
  | .error _ => []

/-- Witness for C1: on the concrete pre-populated state the hypotheses hold
and the run only re-owns the existing database, preserving its tables. -/
theorem syncDb_preserves_existing_primary_db_witness :
    syncDbRun demoCfg demoSt = .ok (demoC1St, demoC1Tr) ∧
    dbExists demoSt demoCfg.mainDb = true ∧
    (demoC1Tr = [.alterUserPassword demoCfg.suUser demoCfg.suPass,
                 .alterDatabaseOwner demoCfg.mainDb demoCfg.suUser] ∧
     demoC1St.tables = demoSt.tables ∧
     lookupA demoCfg.mainDb demoC1St.databases = some demoCfg.suUser) :=
  ⟨rfl, by decide,
   (syncDb_preserves_existing_primary_db demoCfg demoSt demoC1St demoC1Tr rfl).1
     (by decide)⟩

theorem setA_setA_self {κ α : Type} [DecidableEq κ] (k : κ) (v : α)
    (l : List (κ × α)) : setA k v (setA k v l) = setA k v l :=
  setA_eq_of_lookupA (lookupA_setA_self ..)

/-! ### Claim C10 -/

/-- **C10.** The deploy.sh inline db-init heredoc (unconditional
`ALTER USER`; `CREATE DATABASE` guarded by `WHERE NOT EXISTS`; then
`ALTER DATABASE OWNER` guarded by `WHERE EXISTS`) is state-equivalent to the
sync-db.sh heredoc (single `CASE`): from every starting cluster state both
statement sequences produce the same outcome — the same final cluster state
(hence the same role passwords, database existence and ownership) or the
same error. -/
theorem deploy_heredoc_equiv_syncDb (cfg : BackendCfg) (st : ClusterState) :
    (execScript st (deployDbInitScript cfg)).map Prod.fst =
      (execScript st (syncDbScript cfg)).map Prod.fst := by
  by_cases hr : (lookupA cfg.suUser st.roles).isSome = true
  · by_cases hdb : (lookupA cfg.mainDb st.databases).isSome = true
    · simp [deployDbInitScript, syncDbScript, execScript, execAtoms, execAtom,
        lineAlterSuPass, lineCreateMainDbIfAbsent, lineAlterMainDbOwnerIfPresent,
        lineCaseMainDb, roleExists, dbExists, hr, hdb, lookupA_setA_self]
    · simp [deployDbInitScript, syncDbScript, execScript, execAtoms, execAtom,
        lineAlterSuPass, lineCreateMainDbIfAbsent, lineAlterMainDbOwnerIfPresent,
        lineCaseMainDb, roleExists, dbExists, hr, hdb, lookupA_setA_self,
        setA_setA_self, Except.map]
  · simp [deployDbInitScript, syncDbScript, execScript, execAtoms, execAtom,
      lineAlterSuPass, lineCreateMainDbIfAbsent, lineAlterMainDbOwnerIfPresent,
      lineCaseMainDb, roleExists, dbExists, hr]

theorem execAtoms_cons_ok {st st' : ClusterState} {a : Atom} {rest tr : List Atom}
    (h : execAtoms st (a :: rest) = .ok (st', tr)) :
    ∃ stm as, execAtom st a = .ok stm ∧ execAtoms stm rest = .ok (st', as) ∧
      tr = a :: as := by
  simp only [execAtoms] at h
  cases hA : execAtom st a with
  | error e => simp only [hA] at h; exact Except.noConfusion h
  | ok stm =>
      simp only [hA] at h
      cases hR : execAtoms stm rest with
      | error e => simp only [hR] at h; exact Except.noConfusion h
      | ok p =>
          obtain ⟨st'', as⟩ := p
          simp only [hR, Except.ok.injEq, Prod.mk.injEq] at h
          exact ⟨stm, as, rfl, by rw [hR, h.1], h.2.symm⟩

theorem execScript_cons_ok {st st' : ClusterState} {l : Line} {ls : List Line}
    {tr : List Atom} (h : execScript st (l :: ls) = .ok (st', tr)) :
    ∃ stm as as', execAtoms st (l st) = .ok (stm, as) ∧
      execScript stm ls = .ok (st', as') ∧ tr = as ++ as' := by
  simp only [execScript] at h
  cases hA : execAtoms st (l st) with
  | error e => simp only [hA] at h; exact Except.noConfusion h
  | ok p =>
      obtain ⟨stm, as⟩ := p
      simp only [hA] at h
      cases hR : execScript stm ls with
      | error e => simp only [hR] at h; exact Except.noConfusion h
      | ok p' =>
          obtain ⟨st'', as'⟩ := p'
          simp only [hR, Except.ok.injEq, Prod.mk.injEq] at h
          exact ⟨stm, as, as', rfl, by rw [hR, h.1], h.2.symm⟩

/-- The second psql session of the plugin script touches only grants,
default privileges and extensions: roles and databases are untouched. -/
theorem pluginSession2_preserves_roles_dbs (cfg : PluginCfg)
    {st st2 : ClusterState} {a2 : List Atom}
    (h : execScript st (pluginSession2 cfg) = .ok (st2, a2)) :
    st2.roles = st.roles ∧ st2.databases = st.databases ∧
    st2.tables = st.tables := by
  by_cases hpu : (lookupA cfg.pluginUser st.roles).isSome = true
  · by_cases hext :
        (lookupA (cfg.pluginDb, "uuid-ossp") st.extensions).isSome = true
    · simp only [pluginSession2, execScript, execAtoms, execAtom, roleExists,
        hpu, hext, if_true, List.append_nil, List.singleton_append] at h
      rw [Except.ok.injEq, Prod.mk.injEq] at h
      rw [← h.1]
      exact ⟨rfl, rfl, rfl⟩
    · simp only [pluginSession2, execScript, execAtoms, execAtom, roleExists,
        hpu, hext, if_true, if_false, Bool.false_eq_true, List.append_nil,
        List.singleton_append] at h
      rw [Except.ok.injEq, Prod.mk.injEq] at h
      rw [← h.1]
      exact ⟨rfl, rfl, rfl⟩
  · simp only [pluginSession2, execScript, execAtoms, execAtom, roleExists,
      hpu, if_false, Bool.false_eq_true] at h
    exact absurd h (by simp)

/-! ### Claim C6 -/

/-- **C6.** Each bootstrap script's first statement is the unconditional
`ALTER USER ... WITH PASSWORD` for the primary role: the generator for that
line emits it regardless of the cluster state, it is the head of every
successful run's statement trace, and after any successful run of
sync-db.sh, of the deploy.sh heredoc, or of the plugin script, the primary
role's stored password equals the configured secret. -/
theorem primary_password_overwritten_unconditionally :
    (∀ (cfg : BackendCfg) (st : ClusterState),
      lineAlterSuPass cfg st = [.alterUserPassword cfg.suUser cfg.suPass]) ∧
    (∀ (cfg : BackendCfg) (st st' : ClusterState) (tr : List Atom),
      syncDbRun cfg st = .ok (st', tr) →
        lookupA cfg.suUser st'.roles = some cfg.suPass ∧
        tr.head? = some (.alterUserPassword cfg.suUser cfg.suPass)) ∧
    (∀ (cfg : BackendCfg) (st st' : ClusterState) (tr : List Atom),
      deployDbInitRun cfg st = .ok (st', tr) →
        lookupA cfg.suUser st'.roles = some cfg.suPass ∧
        tr.head? = some (.alterUserPassword cfg.suUser cfg.suPass)) ∧
    (∀ (cfg : PluginCfg) (st st' : ClusterState) (tr : List Atom),
      syncPluginRun cfg st = .ok (st', tr) →
        lookupA cfg.suUser st'.roles = some cfg.suPass ∧
        tr.head? = some (.alterUserPassword cfg.suUser cfg.suPass)) := by
  refine ⟨fun cfg st => rfl, fun cfg st st' tr h => ?_, fun cfg st st' tr h => ?_,
    fun cfg st st' tr h => ?_⟩
  · unfold syncDbRun psqlRun at h
    by_cases hc : connOk st cfg.suUser cfg.suPass "postgres" = true
    · simp only [if_pos hc] at h
      simp only [connOk, Bool.and_eq_true, beq_iff_eq] at hc
      obtain ⟨hpass, hpg⟩ := hc
      by_cases hdb : (lookupA cfg.mainDb st.databases).isSome = true
      · simp only [syncDbScript, execScript, execAtoms, lineAlterSuPass,
          lineCaseMainDb, execAtom, roleExists, hpass, Option.isSome_some,
          if_true, dbExists, hdb, lookupA_setA_self, List.append_nil,
          List.singleton_append] at h
        rw [Except.ok.injEq, Prod.mk.injEq] at h
        obtain ⟨hst, htr⟩ := h
        subst htr
        rw [← hst]
        by_cases hsu : cfg.mainDb = cfg.suUser
        · constructor
          · show lookupA cfg.suUser (setA cfg.suUser cfg.suPass st.roles) = _
            exact lookupA_setA_self ..
          · rfl
        · exact ⟨lookupA_setA_self .., rfl⟩
      · simp only [syncDbScript, execScript, execAtoms, lineAlterSuPass,
          lineCaseMainDb, execAtom, roleExists, hpass, Option.isSome_some,
          if_true, dbExists, hdb, if_false, Bool.false_eq_true,
          lookupA_setA_self, List.append_nil, List.singleton_append] at h
        rw [Except.ok.injEq, Prod.mk.injEq] at h
        obtain ⟨hst, htr⟩ := h
        subst htr
        rw [← hst]
        exact ⟨lookupA_setA_self .., rfl⟩
    · simp [if_neg hc] at h
  · unfold deployDbInitRun at h
    by_cases hr : (lookupA cfg.suUser st.roles).isSome = true
    · by_cases hdb : (lookupA cfg.mainDb st.databases).isSome = true
      · simp only [deployDbInitScript, execScript, execAtoms, execAtom,
          lineAlterSuPass, lineCreateMainDbIfAbsent,
          lineAlterMainDbOwnerIfPresent, roleExists, dbExists, hr, hdb,
          if_true, lookupA_setA_self, Option.isSome_some, List.append_nil,
          List.singleton_append, List.nil_append] at h
        rw [Except.ok.injEq, Prod.mk.injEq] at h
        obtain ⟨hst, htr⟩ := h
        subst htr
        rw [← hst]
        exact ⟨lookupA_setA_self .., rfl⟩
      · simp only [deployDbInitScript, execScript, execAtoms, execAtom,
          lineAlterSuPass, lineCreateMainDbIfAbsent,
          lineAlterMainDbOwnerIfPresent, roleExists, dbExists, hr, hdb,
          if_true, if_false, Bool.false_eq_true, lookupA_setA_self,
          Option.isSome_some, setA_setA_self, List.append_nil,
          List.singleton_append, List.nil_append] at h
        rw [Except.ok.injEq, Prod.mk.injEq] at h
        obtain ⟨hst, htr⟩ := h
        subst htr
        rw [← hst]
        exact ⟨lookupA_setA_self .., rfl⟩
    · simp [deployDbInitScript, execScript, execAtoms, execAtom,
        lineAlterSuPass, roleExists, hr] at h
  · unfold syncPluginRun at h
    cases hs1 : psqlRun st cfg.suUser cfg.suPass "postgres" (pluginSession1 cfg) with
    | error e => simp only [hs1] at h; exact Except.noConfusion h
    | ok p1 =>
        obtain ⟨st1, a1⟩ := p1
        simp only [hs1] at h
        cases hs2 : psqlRun st1 cfg.suUser cfg.suPass cfg.pluginDb
            (pluginSession2 cfg) with
        | error e => simp only [hs2] at h; exact Except.noConfusion h
        | ok p2 =>
            obtain ⟨st2, a2⟩ := p2
            simp only [hs2, Except.ok.injEq, Prod.mk.injEq] at h
            obtain ⟨hst, htr⟩ := h
            subst hst
            subst htr
            unfold psqlRun at hs2
            by_cases hc2 : connOk st1 cfg.suUser cfg.suPass cfg.pluginDb = true
            · simp only [if_pos hc2] at hs2
              simp only [connOk, Bool.and_eq_true, beq_iff_eq] at hc2
              obtain ⟨hpass1, hdb1⟩ := hc2
              obtain ⟨hroles, _, _⟩ := pluginSession2_preserves_roles_dbs cfg hs2
              refine ⟨hroles ▸ hpass1, ?_⟩
              -- head of the trace: the first statement session 1 executed
              unfold psqlRun at hs1
              by_cases hc1 : connOk st cfg.suUser cfg.suPass "postgres" = true
              · simp only [if_pos hc1, pluginSession1] at hs1
                obtain ⟨stm, as, as', hA, _, htr1⟩ := execScript_cons_ok hs1
                obtain ⟨stm2, as2, _, hA2, htr2⟩ :=
                  execAtoms_cons_ok (by simpa [lineAlterSuPass] using hA)
                subst htr1
                subst htr2
                rfl
              · simp [if_neg hc1] at hs1
            · simp [if_neg hc2] at hs2

/-- Demo plugin configuration: the script defaults. -/
def demoPluginCfg : PluginCfg :=
  { suUser := "antihub", suPass := "p1", mainDb := "antihub",
    pluginUser := "antigravity", pluginPass := "p2", pluginDb := "antigravity" }

/-- Demo starting state for the plugin script: fresh cluster, primary role
present, a bystander role `bob`. -/
def demoPluginSt : ClusterState :=
  { roles := [("antihub", "p1"), ("bob", "pb")]
    databases := [("postgres", "antihub")]
    dbGrants := []
    schemaGrants := []
    defaultPrivs := []
    extensions := []
    tables := [] }

/-- The result of the plugin script on `demoPluginSt`. -/
def demoPluginRes : Except PgErr (ClusterState × List Atom) :=
  syncPluginRun demoPluginCfg demoPluginSt

/-- State after the demo plugin run. -/
def demoPluginSt1 : ClusterState :=
  match demoPluginRes with
  | .ok (s, _) => s
  | .error _ => demoPluginSt

/-- Trace of the demo plugin run. -/
def demoPluginTr1 : List Atom :=
  match demoPluginRes with
  | .ok (_, t) => t
  | .error _ => []

/-- Witness for C6: concrete runs of sync-db.sh and of the plugin script end
with the configured primary password, and their traces start with the
unconditional `ALTER USER`. -/
theorem primary_password_overwritten_unconditionally_witness :
    (lookupA demoCfg.suUser demoC1St.roles = some demoCfg.suPass ∧
      demoC1Tr.head? =
        some (.alterUserPassword demoCfg.suUser demoCfg.suPass)) ∧
    (lookupA demoPluginCfg.suUser demoPluginSt1.roles = some demoPluginCfg.suPass ∧
      demoPluginTr1.head? =
        some (.alterUserPassword demoPluginCfg.suUser demoPluginCfg.suPass)) :=
  ⟨primary_password_overwritten_unconditionally.2.1 demoCfg demoSt demoC1St
      demoC1Tr rfl,
   primary_password_overwritten_unconditionally.2.2.2 demoPluginCfg demoPluginSt
      demoPluginSt1 demoPluginTr1 rfl⟩

/-! ### Claim C8 -/

/-- **C8.** Fail-fast: if a prefix of a statement sequence (or of a heredoc)
fails with some error, the whole sequence fails with that same error — the
failing statement aborts the run and nothing after it is executed (the
`Except.error` result carries no state or trace and exits non-zero); and for
both sync-db.sh and the plugin script a connection failure is reported as
such, before any SQL statement is attempted. -/
theorem bootstrap_fail_fast :
    (∀ (st : ClusterState) (as1 as2 : List Atom) (e : PgErr),
      execAtoms st as1 = .error e → execAtoms st (as1 ++ as2) = .error e) ∧
    (∀ (st : ClusterState) (ls1 ls2 : List Line) (e : PgErr),
      execScript st ls1 = .error e → execScript st (ls1 ++ ls2) = .error e) ∧
    (∀ (cfg : BackendCfg) (st : ClusterState),
      connOk st cfg.suUser cfg.suPass "postgres" = false →
        syncDbRun cfg st = .error .connectionFailed) ∧
    (∀ (cfg : PluginCfg) (st : ClusterState),
      connOk st cfg.suUser cfg.suPass "postgres" = false →
        syncPluginRun cfg st = .error .connectionFailed) := by
  refine ⟨fun st as1 as2 e h => execAtoms_append_error as2 h,
    fun st ls1 ls2 e h => execScript_append_error ls2 h,
    fun cfg st hc => ?_, fun cfg st hc => ?_⟩
  · simp [syncDbRun, psqlRun, hc]
  · simp [syncPluginRun, psqlRun, hc]

/-- Witness for C8, at concrete inputs: a failing one-statement prefix
(altering a role that does not exist on an empty cluster) aborts the longer
sequence with the same error, and a bad password makes sync-db.sh fail with
a connection error. -/
theorem bootstrap_fail_fast_witness :
    execAtoms { roles := [], databases := [], dbGrants := [],
                schemaGrants := [], defaultPrivs := [], extensions := [],
                tables := [] }
        ([.alterUserPassword "antihub" "p1"] ++ [.createUser "antigravity" "p2"]) =
      .error (.roleNotFound "antihub") ∧
    syncDbRun demoCfg { demoSt with roles := [("antihub", "old-password")] } =
      .error .connectionFailed :=
  ⟨bootstrap_fail_fast.1 _ [.alterUserPassword "antihub" "p1"]
      [.createUser "antigravity" "p2"] (.roleNotFound "antihub") rfl,
   bootstrap_fail_fast.2.2.1 demoCfg _ rfl⟩

theorem execAtoms_singleton_ok {st st' : ClusterState} {a : Atom} {as : List Atom}
    (h : execAtoms st [a] = .ok (st', as)) :
    execAtom st a = .ok st' ∧ as = [a] := by
  obtain ⟨stm, as2, hA, hR, hTr⟩ := execAtoms_cons_ok h
  simp only [execAtoms, Except.ok.injEq, Prod.mk.injEq] at hR
  obtain ⟨h1, h2⟩ := hR
  subst h1
  subst hTr
  rw [← h2]
  exact ⟨hA, rfl⟩

theorem lookupA_isSome_append_self {κ α : Type} [DecidableEq κ] (k : κ) (v : α)
    (l : List (κ × α)) : (lookupA k (l ++ [(k, v)])).isSome = true := by
  induction l with
  | nil => simp [lookupA]
  | cons hd tl ih =>
      obtain ⟨k', v'⟩ := hd
      by_cases h : k' = k <;> simp [lookupA, h, ih]

/-! ### Effect of each heredoc line of the plugin script -/

theorem lineAlterSuPass_effect (cfg : BackendCfg) {st st' : ClusterState}
    {as : List Atom} (h : execAtoms st (lineAlterSuPass cfg st) = .ok (st', as)) :
    st'.roles = setA cfg.suUser cfg.suPass st.roles ∧
    st'.databases = st.databases ∧ st'.dbGrants = st.dbGrants ∧
    st'.schemaGrants = st.schemaGrants ∧ st'.defaultPrivs = st.defaultPrivs ∧
    st'.extensions = st.extensions := by
  obtain ⟨hA, _⟩ := execAtoms_singleton_ok h
  simp only [execAtom] at hA
  split at hA
  · obtain rfl := Except.ok.inj hA
    exact ⟨rfl, rfl, rfl, rfl, rfl, rfl⟩
  · exact Except.noConfusion hA

theorem lineCaseMainDb_effect (cfg : BackendCfg) {st st' : ClusterState}
    {as : List Atom} (h : execAtoms st (lineCaseMainDb cfg st) = .ok (st', as)) :
    st'.databases = setA cfg.mainDb cfg.suUser st.databases ∧
    st'.roles = st.roles ∧ st'.dbGrants = st.dbGrants ∧
    st'.schemaGrants = st.schemaGrants ∧ st'.defaultPrivs = st.defaultPrivs ∧
    st'.extensions = st.extensions := by
  unfold lineCaseMainDb at h
  split at h
  all_goals obtain ⟨hA, _⟩ := execAtoms_singleton_ok h
  all_goals simp only [execAtom] at hA
  all_goals repeat' split at hA
  all_goals
    first
    | exact Except.noConfusion hA
    | (obtain rfl := Except.ok.inj hA
       exact ⟨rfl, rfl, rfl, rfl, rfl, rfl⟩)

theorem lineCasePluginUser_effect (cfg : PluginCfg) {st st' : ClusterState}
    {as : List Atom} (h : execAtoms st (lineCasePluginUser cfg st) = .ok (st', as)) :
    st'.roles = setA cfg.pluginUser cfg.pluginPass st.roles ∧
    st'.databases = st.databases ∧ st'.dbGrants = st.dbGrants ∧
    st'.schemaGrants = st.schemaGrants ∧ st'.defaultPrivs = st.defaultPrivs ∧
    st'.extensions = st.extensions ∧ st'.tables = st.tables := by
  unfold lineCasePluginUser at h
  split at h
  all_goals obtain ⟨hA, _⟩ := execAtoms_singleton_ok h
  all_goals simp only [execAtom] at hA
  all_goals repeat' split at hA
  all_goals
    first
    | exact Except.noConfusion hA
    | (obtain rfl := Except.ok.inj hA
       exact ⟨rfl, rfl, rfl, rfl, rfl, rfl, rfl⟩)

theorem lineCasePluginDb_effect (cfg : PluginCfg) {st st' : ClusterState}
    {as : List Atom} (h : execAtoms st (lineCasePluginDb cfg st) = .ok (st', as)) :
    st'.databases = setA cfg.pluginDb cfg.pluginUser st.databases ∧
    st'.roles = st.roles ∧ st'.dbGrants = st.dbGrants ∧
    st'.schemaGrants = st.schemaGrants ∧ st'.defaultPrivs = st.defaultPrivs ∧
    st'.extensions = st.extensions := by
  unfold lineCasePluginDb at h
  split at h
  all_goals obtain ⟨hA, _⟩ := execAtoms_singleton_ok h
  all_goals simp only [execAtom] at hA
  all_goals repeat' split at hA
  all_goals
    first
    | exact Except.noConfusion hA
    | (obtain rfl := Except.ok.inj hA
       exact ⟨rfl, rfl, rfl, rfl, rfl, rfl⟩)

theorem lineGrantPluginDb_effect (cfg : PluginCfg) {st st' : ClusterState}
    {as : List Atom} (h : execAtoms st (lineGrantPluginDb cfg st) = .ok (st', as)) :
    st'.dbGrants = insertIfAbsent (cfg.pluginDb, cfg.pluginUser) st.dbGrants ∧
    st'.roles = st.roles ∧ st'.databases = st.databases ∧
    st'.schemaGrants = st.schemaGrants ∧ st'.defaultPrivs = st.defaultPrivs ∧
    st'.extensions = st.extensions := by
  obtain ⟨hA, _⟩ := execAtoms_singleton_ok h
  simp only [execAtom] at hA
  repeat' split at hA
  all_goals
    first
    | exact Except.noConfusion hA
    | (obtain rfl := Except.ok.inj hA
       exact ⟨rfl, rfl, rfl, rfl, rfl, rfl⟩)

/-- Effect of the second psql session of the plugin script: the grant, the
two default-privilege entries and the extension are present afterwards;
roles, databases and database-level grants are untouched. -/
theorem pluginSession2_effect (cfg : PluginCfg) {st st2 : ClusterState}
    {a2 : List Atom} (h : execScript st (pluginSession2 cfg) = .ok (st2, a2)) :
    (cfg.pluginDb, "public", cfg.pluginUser) ∈ st2.schemaGrants ∧
    (cfg.pluginDb, "public", cfg.suUser, ObjKind.tables, cfg.pluginUser) ∈
      st2.defaultPrivs ∧
    (cfg.pluginDb, "public", cfg.suUser, ObjKind.sequences, cfg.pluginUser) ∈
      st2.defaultPrivs ∧
    (lookupA (cfg.pluginDb, "uuid-ossp") st2.extensions).isSome = true ∧
    st2.roles = st.roles ∧ st2.databases = st.databases ∧
    st2.dbGrants = st.dbGrants := by
  by_cases hpu : (lookupA cfg.pluginUser st.roles).isSome = true
  · by_cases hext :
        (lookupA (cfg.pluginDb, "uuid-ossp") st.extensions).isSome = true
    · simp only [pluginSession2, execScript, execAtoms, execAtom, roleExists,
        hpu, hext, if_true, List.append_nil, List.singleton_append] at h
      rw [Except.ok.injEq, Prod.mk.injEq] at h
      rw [← h.1]
      refine ⟨mem_insertIfAbsent_self .., ?_, ?_, hext, rfl, rfl, rfl⟩
      · exact mem_insertIfAbsent_of_mem (mem_insertIfAbsent_self ..)
      · exact mem_insertIfAbsent_self ..
    · simp only [pluginSession2, execScript, execAtoms, execAtom, roleExists,
        hpu, hext, if_true, if_false, Bool.false_eq_true, List.append_nil,
        List.singleton_append] at h
      rw [Except.ok.injEq, Prod.mk.injEq] at h
      rw [← h.1]
      refine ⟨mem_insertIfAbsent_self .., ?_, ?_, ?_, rfl, rfl, rfl⟩
      · exact mem_insertIfAbsent_of_mem (mem_insertIfAbsent_self ..)
      · exact mem_insertIfAbsent_self ..
      · exact lookupA_isSome_append_self ..
  · simp only [pluginSession2, execScript, execAtoms, execAtom, roleExists,
      hpu, if_false, Bool.false_eq_true] at h
    exact absurd h (by simp)

/-- The target state of the plugin bootstrap script, as observable catalog
facts: passwords of the two roles, ownership of the two databases, the
grants, the two default-privilege entries recorded for the primary role as
creator, the extension, and existence of the maintenance database
`postgres`. -/
def PluginConfigured (cfg : PluginCfg) (st : ClusterState) : Prop :=
  lookupA cfg.suUser st.roles = some cfg.suPass ∧
  lookupA cfg.mainDb st.databases = some cfg.suUser ∧
  lookupA cfg.pluginUser st.roles = some cfg.pluginPass ∧
  lookupA cfg.pluginDb st.databases = some cfg.pluginUser ∧
  (cfg.pluginDb, cfg.pluginUser) ∈ st.dbGrants ∧
  (cfg.pluginDb, "public", cfg.pluginUser) ∈ st.schemaGrants ∧
  (cfg.pluginDb, "public", cfg.suUser, ObjKind.tables, cfg.pluginUser) ∈
    st.defaultPrivs ∧
  (cfg.pluginDb, "public", cfg.suUser, ObjKind.sequences, cfg.pluginUser) ∈
    st.defaultPrivs ∧
  (lookupA (cfg.pluginDb, "uuid-ossp") st.extensions).isSome = true ∧
  (lookupA "postgres" st.databases).isSome = true

/-- Any successful run of the plugin bootstrap script leaves the cluster in
the configured state (distinct primary/plugin database names assumed, as in
the script's defaults). -/
theorem syncPluginRun_establishes_configured (cfg : PluginCfg)
    (hW1 : cfg.mainDb ≠ cfg.pluginDb) {st st' : ClusterState} {tr : List Atom}
    (h : syncPluginRun cfg st = .ok (st', tr)) : PluginConfigured cfg st' := by
  unfold syncPluginRun at h
  cases hs1 : psqlRun st cfg.suUser cfg.suPass "postgres" (pluginSession1 cfg) with
  | error e => simp only [hs1] at h; exact Except.noConfusion h
  | ok p1 =>
      obtain ⟨st1, a1⟩ := p1
      simp only [hs1] at h
      cases hs2 : psqlRun st1 cfg.suUser cfg.suPass cfg.pluginDb
          (pluginSession2 cfg) with
      | error e => simp only [hs2] at h; exact Except.noConfusion h
      | ok p2 =>
          obtain ⟨st2, a2⟩ := p2
          simp only [hs2, Except.ok.injEq, Prod.mk.injEq] at h
          obtain ⟨hst, _⟩ := h
          subst hst
          -- session 1: decompose the five lines
          unfold psqlRun at hs1
          by_cases hc1 : connOk st cfg.suUser cfg.suPass "postgres" = true
          · simp only [if_pos hc1, pluginSession1] at hs1
            simp only [connOk, Bool.and_eq_true, beq_iff_eq, dbExists] at hc1
            obtain ⟨hpass, hpg⟩ := hc1
            obtain ⟨stA, _, _, hL1, hs1b, _⟩ := execScript_cons_ok hs1
            obtain ⟨stB, _, _, hL2, hs1c, _⟩ := execScript_cons_ok hs1b
            obtain ⟨stC, _, _, hL3, hs1d, _⟩ := execScript_cons_ok hs1c
            obtain ⟨stD, _, _, hL4, hs1e, _⟩ := execScript_cons_ok hs1d
            obtain ⟨stE, _, _, hL5, hs1f, _⟩ := execScript_cons_ok hs1e
            simp only [execScript, Except.ok.injEq, Prod.mk.injEq] at hs1f
            obtain ⟨hE1, _⟩ := hs1f
            obtain ⟨r1, d1, g1, s1, p1, x1⟩ := lineAlterSuPass_effect _ hL1
            obtain ⟨d2, r2, g2, s2, p2, x2⟩ := lineCaseMainDb_effect _ hL2
            obtain ⟨r3, d3, g3, s3, p3'', x3, t3⟩ := lineCasePluginUser_effect _ hL3
            obtain ⟨d4, r4, g4, s4, p4, x4⟩ := lineCasePluginDb_effect _ hL4
            obtain ⟨g5, r5, d5, s5, p5, x5⟩ := lineGrantPluginDb_effect _ hL5
            -- session 2 connection and effects
            unfold psqlRun at hs2
            by_cases hc2 : connOk st1 cfg.suUser cfg.suPass cfg.pluginDb = true
            · simp only [if_pos hc2] at hs2
              simp only [connOk, Bool.and_eq_true, beq_iff_eq, dbExists] at hc2
              obtain ⟨hpass1, hdb1⟩ := hc2
              obtain ⟨m6, m7, m8, m9, rr, dd, gg⟩ := pluginSession2_effect cfg hs2
              have hdbs1 : st1.databases =
                  setA cfg.pluginDb cfg.pluginUser
                    (setA cfg.mainDb cfg.suUser st.databases) := by
                rw [← hE1, d5, d4, d3, d2, d1]
              have hrol1 : st1.roles =
                  setA cfg.pluginUser cfg.pluginPass
                    (setA cfg.suUser cfg.suPass st.roles) := by
                rw [← hE1, r5, r4, r3, r2, r1]
              have hgr1 : st1.dbGrants =
                  insertIfAbsent (cfg.pluginDb, cfg.pluginUser) st.dbGrants := by
                rw [← hE1, g5, g4, g3, g2, g1]
              refine ⟨?_, ?_, ?_, ?_, ?_, m6, m7, m8, m9, ?_⟩
              · rw [rr]; exact hpass1
              · rw [dd, hdbs1, lookupA_setA_ne _ _ (Ne.symm hW1)]
                exact lookupA_setA_self ..
              · rw [rr, hrol1]; exact lookupA_setA_self ..
              · rw [dd, hdbs1]; exact lookupA_setA_self ..
              · rw [gg, hgr1]; exact mem_insertIfAbsent_self ..
              · rw [dd, hdbs1]
                exact lookupA_isSome_setA _ _ (lookupA_isSome_setA _ _ hpg)
            · simp [if_neg hc2] at hs2
          · simp [if_neg hc1] at hs1

/-- The statements a run of the plugin script issues against an
already-configured cluster: only `ALTER`s, `GRANT`s and the no-op
`CREATE EXTENSION IF NOT EXISTS` — every `CASE` takes its non-creating
branch. -/
def pluginSteadyAtoms (cfg : PluginCfg) : List Atom :=
  [.alterUserPassword cfg.suUser cfg.suPass,
   .alterDatabaseOwner cfg.mainDb cfg.suUser,
   .alterUserPassword cfg.pluginUser cfg.pluginPass,
   .alterDatabaseOwner cfg.pluginDb cfg.pluginUser,
   .grantAllOnDatabase cfg.pluginDb cfg.pluginUser,
   .grantAllOnSchema cfg.pluginDb "public" cfg.pluginUser,
   .alterDefaultPrivs cfg.pluginDb "public" cfg.suUser .tables cfg.pluginUser,
   .alterDefaultPrivs cfg.pluginDb "public" cfg.suUser .sequences cfg.pluginUser,
   .createExtensionIfAbsent cfg.pluginDb "uuid-ossp" "public"]

/-- `CREATE` statements (the only object-creating DDL the scripts can emit;
no destructive DDL is expressible at all, the scripts contain none). -/
def isCreate : Atom → Bool
  | .createUser _ _ => true
  | .createDatabase _ _ => true
  | _ => false

/-- On an already-configured cluster the plugin script succeeds, leaves the
state bit-for-bit unchanged, and issues exactly `pluginSteadyAtoms`. -/
theorem syncPluginRun_steady (cfg : PluginCfg) (st : ClusterState)
    (hconf : PluginConfigured cfg st) :
    syncPluginRun cfg st = .ok (st, pluginSteadyAtoms cfg) := by
  obtain ⟨c1, c2, c3, c4, c5, c6, c7, c8, c9, c10⟩ := hconf
  have e1 := setA_eq_of_lookupA c1
  have e2 := setA_eq_of_lookupA c2
  have e3 := setA_eq_of_lookupA c3
  have e4 := setA_eq_of_lookupA c4
  have e5 := insertIfAbsent_eq_of_mem c5
  have e6 := insertIfAbsent_eq_of_mem c6
  have e7 := insertIfAbsent_eq_of_mem c7
  have e8 := insertIfAbsent_eq_of_mem c8
  simp only [syncPluginRun, psqlRun, connOk, pluginSession1, pluginSession2,
    execScript, execAtoms, execAtom, roleExists, dbExists, lineAlterSuPass,
    lineCaseMainDb, lineCasePluginUser, lineCasePluginDb, lineGrantPluginDb,
    c1, c2, c3, c4, c9, c10, e1, e2, e3, e4, e5, e6, e7, e8,
    Option.isSome_some, beq_self_eq_true, Bool.and_self, Bool.true_and,
    Bool.and_true, if_true, pluginSteadyAtoms, List.append_nil,
    List.singleton_append, List.cons_append, List.nil_append]

/-! ### Claim C2 -/

/-- **C2.** The Bootstrap Reconciler is idempotent: after any successful run
(primary and plugin database names distinct, as configured), running the
whole plugin script again succeeds, returns the *same* cluster state
bit-for-bit (same role passwords, database existence and ownership, grants,
default privileges, extension presence), and the second run's statement
trace is exactly `pluginSteadyAtoms` — ALTERs and GRANTs only, no object
creation (and no destructive DDL, which the scripts cannot even express). -/
theorem bootstrap_reconciler_idempotent (cfg : PluginCfg)
    (hW1 : cfg.mainDb ≠ cfg.pluginDb) (st st1 : ClusterState) (tr1 : List Atom)
    (h : syncPluginRun cfg st = .ok (st1, tr1)) :
    syncPluginRun cfg st1 = .ok (st1, pluginSteadyAtoms cfg) ∧
    ∀ a ∈ pluginSteadyAtoms cfg, isCreate a = false := by
  refine ⟨syncPluginRun_steady cfg st1
    (syncPluginRun_establishes_configured cfg hW1 h), ?_⟩
  intro a ha
  simp only [pluginSteadyAtoms, List.mem_cons, List.mem_singleton] at ha
  rcases ha with rfl | rfl | rfl | rfl | rfl | rfl | rfl | rfl | rfl | h'
  any_goals rfl
  exact absurd h' (List.not_mem_nil a)

/-- Witness for C2: a concrete first run on a fresh cluster, after which the
second run returns the same state unchanged. -/
theorem bootstrap_reconciler_idempotent_witness :
    demoPluginCfg.mainDb ≠ demoPluginCfg.pluginDb ∧
    syncPluginRun demoPluginCfg demoPluginSt = .ok (demoPluginSt1, demoPluginTr1) ∧
    syncPluginRun demoPluginCfg demoPluginSt1 =
      .ok (demoPluginSt1, pluginSteadyAtoms demoPluginCfg) :=
  ⟨by decide, rfl,
   (bootstrap_reconciler_idempotent demoPluginCfg (by decide) demoPluginSt
      demoPluginSt1 demoPluginTr1 rfl).1⟩

theorem find?_append_singleton_of_fresh (l : List Table) (t : Table)
    (n : String) (hn : t.name = n) (h : n ∉ l.map Table.name) :
    (l ++ [t]).find? (fun x => x.name = n) = some t := by
  induction l with
  | nil => simp [List.find?, hn]
  | cons hd tl ih =>
      simp only [List.map_cons, List.mem_cons] at h
      push_neg at h
      obtain ⟨h1, h2⟩ := h
      simp only [List.cons_append, List.find?]
      rw [decide_eq_false (by exact fun he => h1 he.symm)]
      exact ih h2

/-! ### Claim C7 -/

/-- **C7 (counterexample).** The claim says the schema-grant step makes
future tables created *by any role* automatically granted to the secondary
role.  False: `ALTER DEFAULT PRIVILEGES` without `FOR ROLE` only covers
objects created by the role that executed it (the primary role).  Concretely
after a successful plugin-script run, a table created in the plugin
database's `public` schema by the pre-existing role `bob` does not carry any
privilege for the secondary role. -/
theorem default_privileges_any_creator_counterexample :
    syncPluginRun demoPluginCfg demoPluginSt = .ok (demoPluginSt1, demoPluginTr1) ∧
    demoPluginCfg.pluginUser ∉
      tableAcl (createTable demoPluginSt1 demoPluginCfg.pluginDb "public" "bob" "t1")
        demoPluginCfg.pluginDb "t1" :=
  ⟨rfl, by decide⟩

/-- **C7 (amended).** After the schema-grant step, the default privileges of
the plugin database's `public` schema are altered for both tables and
sequences so that future tables and sequences created *by the primary role*
(the role that executed the reconciler) are automatically granted to the
secondary role; objects created by other roles are not covered. -/
theorem default_privileges_cover_primary_creator (cfg : PluginCfg)
    (hW1 : cfg.mainDb ≠ cfg.pluginDb) (st st' : ClusterState) (tr : List Atom)
    (h : syncPluginRun cfg st = .ok (st', tr)) :
    (cfg.pluginDb, "public", cfg.suUser, ObjKind.tables, cfg.pluginUser) ∈
      st'.defaultPrivs ∧
    (cfg.pluginDb, "public", cfg.suUser, ObjKind.sequences, cfg.pluginUser) ∈
      st'.defaultPrivs ∧
    ∀ tname,
      tname ∉ ((lookupA cfg.pluginDb st'.tables).getD []).map Table.name →
      cfg.pluginUser ∈
        tableAcl (createTable st' cfg.pluginDb "public" cfg.suUser tname)
          cfg.pluginDb tname := by
  obtain ⟨_, _, _, _, _, _, c7, c8, _, _⟩ :=
    syncPluginRun_establishes_configured cfg hW1 h
  refine ⟨c7, c8, fun tname hfresh => ?_⟩
  unfold createTable tableAcl
  simp only [lookupA_setA_self, Option.getD_some]
  rw [find?_append_singleton_of_fresh _ _ tname rfl hfresh]
  simp only [List.mem_cons]
  right
  exact List.mem_map_of_mem _ (List.mem_filter.mpr ⟨c7, by simp⟩)

/-- Witness for the amended C7: concretely, a fresh table created by
`antihub` in the plugin database is automatically granted to `antigravity`. -/
theorem default_privileges_cover_primary_creator_witness :
    demoPluginCfg.mainDb ≠ demoPluginCfg.pluginDb ∧
    ("t9" ∉ ((lookupA demoPluginCfg.pluginDb demoPluginSt1.tables).getD
        []).map Table.name) ∧
    demoPluginCfg.pluginUser ∈
      tableAcl (createTable demoPluginSt1 demoPluginCfg.pluginDb "public"
          demoPluginCfg.suUser "t9")
        demoPluginCfg.pluginDb "t9" :=
  ⟨by decide, by decide,
   (default_privileges_cover_primary_creator demoPluginCfg (by decide)
      demoPluginSt demoPluginSt1 demoPluginTr1 rfl).2.2 "t9" (by decide)⟩

/-!
### Migration Coordinator (modelled from the spec)

The Migration Coordinator itself is not part of this source tree — the
repository contains only its design (merge plan §§4.2–4.6).  The following
definitions are therefore modelled from the spec's words: flag-gated,
lock-guarded startup migration, user-mapping with administrative fallback,
and envelope encryption of credential fields.
-/

/-- Modelled from the spec: serialization of one string as a length-prefixed
sequence of character codes (part of "a serialized map of credential
fields"; the concrete wire format is unspecified in the source). -/
def encodeStr (s : String) : List Nat :=
  s.data.length :: s.data.map Char.toNat

/-- Modelled from the spec: serialization of one credential field
(name, value). -/
def encodePair (p : String × String) : List Nat :=
  encodeStr p.1 ++ encodeStr p.2

/-- Modelled from the spec: serialization of the whole credential map. -/
def encodeFields : List (String × String) → List Nat
  | [] => []
  | p :: rest => encodePair p ++ encodeFields rest

/-- Decode one length-prefixed string from the payload. -/
def decodeStr : List Nat → Option (String × List Nat)
  | [] => none
  | n :: rest =>
      if n ≤ rest.length then
        some (String.mk ((rest.take n).map Char.ofNat), rest.drop n)
      else none

/-- Decode the credential map (fuel-bounded recursion; the payload shrinks
by at least two entries per field). -/
def decodeFieldsAux : Nat → List Nat → Option (List (String × String))
  | _, [] => some []
  | 0, _ :: _ => none
  | fuel + 1, l =>
      match decodeStr l with
      | none => none
      | some (k, rest) =>
          match decodeStr rest with
          | none => none
          | some (v, rest2) =>
              (decodeFieldsAux fuel rest2).map (fun ps => (k, v) :: ps)

def decodeFields (l : List Nat) : Option (List (String × String)) :=
  decodeFieldsAux l.length l

/-- Modelled from the spec: symmetric masking of the serialized payload with
the cluster's key ("envelope-encrypt ... using the cluster's symmetric
key"). -/
def maskPayload (key : Nat) (l : List Nat) : List Nat :=
  l.map (fun b => b + key)

def unmaskPayload (key : Nat) (l : List Nat) : List Nat :=
  l.map (fun b => b - key)

/-- Render the masked payload as text: each number as a unary run of `a`
terminated by `.` — an executable stand-in for the base64 text of a real
envelope. -/
def renderPayload : List Nat → List Char
  | [] => []
  | n :: rest => List.replicate n 'a' ++ '.' :: renderPayload rest

def parsePayloadAux : List Char → Nat → List Nat
  | [], _ => []
  | c :: rest, acc =>
      if c = '.' then acc :: parsePayloadAux rest 0
      else parsePayloadAux rest (acc + 1)

def parsePayload (l : List Char) : List Nat :=
  parsePayloadAux l 0

/-- The envelope marker prepended to every ciphertext. -/
def envMarker : List Char := ['E', 'N', 'C', ':']

/-- Modelled from the spec: "envelope-encrypt a serialized map of credential
fields using the cluster's symmetric key, store as a single text column". -/
def encrypt (key : Nat) (fields : List (String × String)) : String :=
  String.mk (envMarker ++ renderPayload (maskPayload key (encodeFields fields)))

/-- Modelled from the spec: decryption of the envelope with the symmetric
key — check the envelope marker, unmask with the key, recover the
credential-field map. -/
def decrypt (key : Nat) (c : String) : Option (List (String × String)) :=
  match c.data with
  | 'E' :: 'N' :: 'C' :: ':' :: rest =>
      decodeFields (unmaskPayload key (parsePayload rest))
  | _ => none

/-! ### Round-trip lemmas for the envelope encryption -/

theorem decodeStr_encodeStr (s : String) (tail : List Nat) :
    decodeStr (encodeStr s ++ tail) = some (s, tail) := by
  simp only [encodeStr, List.cons_append, decodeStr]
  rw [if_pos]
  · rw [List.take_left' (List.length_map ..), List.drop_left' (List.length_map ..),
      List.map_map]
    have hcomp : (Char.ofNat ∘ Char.toNat) = id := funext Char.ofNat_toNat
    rw [hcomp, List.map_id]
  · rw [List.length_append, List.length_map]
    omega

theorem decodeFieldsAux_succ (fuel : Nat) (l : List Nat) (hl : l ≠ []) :
    decodeFieldsAux (fuel + 1) l =
      match decodeStr l with
      | none => none
      | some (k, rest) =>
          match decodeStr rest with
          | none => none
          | some (v, rest2) =>
              (decodeFieldsAux fuel rest2).map (fun ps => (k, v) :: ps) := by
  cases l with
  | nil => exact absurd rfl hl
  | cons x xs => rfl

theorem length_le_length_encodeFields (ps : List (String × String)) :
    ps.length ≤ (encodeFields ps).length := by
  induction ps with
  | nil => simp [encodeFields]
  | cons p rest ih =>
      obtain ⟨k, v⟩ := p
      simp only [encodeFields, encodePair, encodeStr, List.length_cons,
        List.length_append]
      omega

theorem decodeFieldsAux_encodeFields (ps : List (String × String)) :
    ∀ fuel, ps.length ≤ fuel →
      decodeFieldsAux fuel (encodeFields ps) = some ps := by
  induction ps with
  | nil => intro fuel _; cases fuel <;> rfl
  | cons p rest ih =>
      intro fuel hf
      obtain ⟨k, v⟩ := p
      cases fuel with
      | zero => simp at hf
      | succ f =>
          have hne : encodeFields ((k, v) :: rest) ≠ [] := by
            simp [encodeFields, encodePair, encodeStr]
          rw [decodeFieldsAux_succ f _ hne]
          have hsh : encodeFields ((k, v) :: rest) =
              encodeStr k ++ (encodeStr v ++ encodeFields rest) := by
            simp [encodeFields, encodePair, List.append_assoc]
          rw [hsh]
          simp only [decodeStr_encodeStr]
          rw [ih f (by simp only [List.length_cons] at hf; omega)]
          rfl

theorem decodeFields_encodeFields (ps : List (String × String)) :
    decodeFields (encodeFields ps) = some ps :=
  decodeFieldsAux_encodeFields ps _ (length_le_length_encodeFields ps)

theorem unmask_mask (key : Nat) (l : List Nat) :
    unmaskPayload key (maskPayload key l) = l := by
  unfold unmaskPayload maskPayload
  rw [List.map_map]
  have hcomp : ((fun b => b - key) ∘ fun b => b + key) = id :=
    funext fun b => Nat.add_sub_cancel b key
  rw [hcomp, List.map_id]

theorem parsePayloadAux_replicate (n : Nat) (rest : List Char) :
    ∀ acc, parsePayloadAux (List.replicate n 'a' ++ '.' :: rest) acc =
      (acc + n) :: parsePayloadAux rest 0 := by
  induction n with
  | zero => intro acc; simp [parsePayloadAux]
  | succ m ih =>
      intro acc
      simp only [List.replicate_succ, List.cons_append, parsePayloadAux]
      rw [if_neg (by decide)]
      simp only [List.append_eq]
      rw [ih (acc + 1)]
      congr 1
      omega

theorem parse_render (l : List Nat) : parsePayload (renderPayload l) = l := by
  induction l with
  | nil => rfl
  | cons n rest ih =>
      unfold parsePayload renderPayload
      rw [parsePayloadAux_replicate]
      simpa [parsePayload] using ih

/-- Decrypting an envelope with the key that produced it recovers the
credential-field map exactly. -/
theorem decrypt_encrypt (key : Nat) (fields : List (String × String)) :
    decrypt key (encrypt key fields) = some fields := by
  show decodeFields (unmaskPayload key (parsePayload
    (renderPayload (maskPayload key (encodeFields fields))))) = some fields
  rw [parse_render, unmask_mask, decodeFields_encodeFields]

theorem length_renderPayload_ge (l : List Nat) :
    l.length ≤ (renderPayload l).length := by
  induction l with
  | nil => simp [renderPayload]
  | cons n rest ih =>
      simp only [renderPayload, List.length_append, List.length_replicate,
        List.length_cons]
      omega

theorem value_length_lt_encodeFields {k v : String}
    {ps : List (String × String)} (h : (k, v) ∈ ps) :
    v.data.length < (encodeFields ps).length := by
  induction ps with
  | nil => simp at h
  | cons p rest ih =>
      obtain ⟨k', v'⟩ := p
      simp only [List.mem_cons] at h
      rcases h with heq | hmem
      · obtain ⟨rfl, rfl⟩ := Prod.mk.injEq .. ▸ heq
        simp only [encodeFields, encodePair, encodeStr, List.length_append,
          List.length_cons, List.length_map]
        omega
      · have := ih hmem
        simp only [encodeFields, List.length_append]
        omega

/-- The ciphertext is strictly longer than every plaintext field value it
encloses, so the stored credential column never equals a plaintext value. -/
theorem encrypt_ne_plaintext (key : Nat) {k v : String}
    {fields : List (String × String)} (h : (k, v) ∈ fields) :
    encrypt key fields ≠ v := by
  intro heq
  have hlen : (encrypt key fields).data.length = v.data.length := by rw [heq]
  have h1 : (encodeFields fields).length ≤
      (renderPayload (maskPayload key (encodeFields fields))).length := by
    have := length_renderPayload_ge (maskPayload key (encodeFields fields))
    simpa [maskPayload] using this
  have h2 := value_length_lt_encodeFields h
  have h3 : (encrypt key fields).data.length =
      4 + (renderPayload (maskPayload key (encodeFields fields))).length := by
    simp only [encrypt, envMarker, List.length_append, List.length_cons,
      List.length_nil]
  omega

/-- Modelled from the spec: a legacy plugin account row — natural key
(`cookie_id`), owning external user id (UUID text), token-like secret
fields, and a representative mutable field. -/
structure LegacyAccount where
  cookieId : String
  userIdExt : String
  accessToken : String
  refreshToken : String
  status : String
deriving DecidableEq, Repr

/-- Modelled from the spec: the corresponding consolidated-schema row — same
natural key, local numeric owner id, and a single encrypted credentials
text column. -/
structure TargetAccount where
  cookieId : String
  userId : Nat
  credentials : String
  status : String
deriving DecidableEq, Repr

/-- Modelled from the spec: the migration environment — the persisted User
Mapping table (external UUID → local user id), the resolved administrative
account (None when no administrative account can be resolved), and the
cluster's symmetric encryption key. -/
structure MigEnv where
  userMapping : List (String × Nat)
  adminId : Option Nat
  encKey : Nat

/-- Modelled from the spec, exact precedence: mapped id if present,
otherwise the administrative account; `none` when neither resolves. -/
def resolveUser (env : MigEnv) (extId : String) : Option Nat :=
  match lookupA extId env.userMapping with
  | some uid => some uid
  | none => env.adminId

/-- The token-like secret fields of a legacy account, as a credential map. -/
def credFields (a : LegacyAccount) : List (String × String) :=
  [("access_token", a.accessToken), ("refresh_token", a.refreshToken)]

/-- Modelled from the spec: transform one legacy account into its target
row — resolve the owner through the User Mapping rule and envelope-encrypt
the secret fields into the single credentials column; fails (`none`) only
when the mapping step fails. -/
def migrateAccount (env : MigEnv) (a : LegacyAccount) : Option TargetAccount :=
  (resolveUser env a.userIdExt).map fun uid =>
    { cookieId := a.cookieId
      userId := uid
      credentials := encrypt env.encKey (credFields a)
      status := a.status }

inductive MigErr
  | sourceUnreachable
  | mappingUnresolved
deriving DecidableEq, Repr

/-- Keyed upsert into the target table (natural key `cookie_id`): update in
place when the key exists, append otherwise. -/
def upsertTarget (t : TargetAccount) : List TargetAccount → List TargetAccount
  | [] => [t]
  | t' :: rest =>
      if t'.cookieId = t.cookieId then t :: rest else t' :: upsertTarget t rest

/-- Modelled from the spec: the per-entity-type copy — read all legacy rows,
resolve each owner, upsert by natural key; a mapping failure fails the whole
entity-type copy. -/
def copyAccounts (env : MigEnv) :
    List LegacyAccount → List TargetAccount → Except MigErr (List TargetAccount)
  | [], tgt => .ok tgt
  | a :: rest, tgt =>
      match migrateAccount env a with
      | none => .error .mappingUnresolved
      | some t => copyAccounts env rest (upsertTarget t tgt)

/-- Modelled from the spec: the coordinator's external circumstances — the
migration feature flag, whether the Distributed Migration Lock is acquired
within the bounded wait, and whether the legacy source is reachable. -/
structure MigConfig where
  flag : Bool
  lockAcquired : Bool
  sourceReachable : Bool

/-- Modelled from the spec: the migration run against the legacy source: an
unreachable source is an unrecoverable error, otherwise copy the entity
type. -/
def runMigration (cfg : MigConfig) (env : MigEnv) (src : List LegacyAccount)
    (tgt : List TargetAccount) : Except MigErr (List TargetAccount) :=
  if cfg.sourceReachable then copyAccounts env src tgt
  else .error .sourceUnreachable

/-- The coordinator's terminal states (per migration name). -/
inductive CoordOutcome
  | disabled
  | skippedConcurrent
  | migrationSucceeded (tgt : List TargetAccount)
  | migrationFailed (e : MigErr)
deriving DecidableEq, Repr

/-- Modelled from the spec: the Migration Coordinator run during process
startup — no action when the flag is unset; deferral (not an error) when
the lock cannot be acquired within the bounded wait; otherwise run the
migration and record success or failure. -/
def runCoordinator (cfg : MigConfig) (env : MigEnv) (src : List LegacyAccount)
    (tgt : List TargetAccount) : CoordOutcome :=
  if !cfg.flag then .disabled
  else if !cfg.lockAcquired then .skippedConcurrent
  else
    match runMigration cfg env src tgt with
    | .ok t => .migrationSucceeded t
    | .error e => .migrationFailed e

/-- Modelled from the spec: the process exit status implied by the
coordinator outcome — startup continues (exit code 0) except when the flag
is set and the migration failed. -/
def startupExitCode : CoordOutcome → Nat
  | .migrationFailed _ => 1
  | _ => 0

/-! ### Claim C3 -/

/-- **C3.** With the migration flag set, failing to acquire the Distributed
Migration Lock within the bounded wait is a non-fatal deferral: the
coordinator ends in Skipped-Concurrent and process startup continues (exit
code 0) — it does not fail or exit. -/
theorem lock_not_acquired_defers_startup (cfg : MigConfig) (env : MigEnv)
    (src : List LegacyAccount) (tgt : List TargetAccount)
    (hflag : cfg.flag = true) (hlock : cfg.lockAcquired = false) :
    runCoordinator cfg env src tgt = .skippedConcurrent ∧
    startupExitCode (runCoordinator cfg env src tgt) = 0 := by
  simp [runCoordinator, hflag, hlock, startupExitCode]

/-- Demo migration environment and legacy rows. -/
def demoMigEnv : MigEnv :=
  { userMapping := [("uuid-1", 7)], adminId := some 1, encKey := 3 }

def demoLegacy : LegacyAccount :=
  { cookieId := "acct-123", userIdExt := "uuid-9", accessToken := "tA",
    refreshToken := "tR", status := "ok" }

/-- Witness for C3 at a concrete configuration. -/
theorem lock_not_acquired_defers_startup_witness :
    runCoordinator { flag := true, lockAcquired := false, sourceReachable := true }
        demoMigEnv [demoLegacy] [] = .skippedConcurrent ∧
    startupExitCode
        (runCoordinator { flag := true, lockAcquired := false, sourceReachable := true }
          demoMigEnv [demoLegacy] []) = 0 :=
  lock_not_acquired_defers_startup _ demoMigEnv [demoLegacy] [] rfl rfl

/-! ### Claim C4 -/

/-- **C4.** With the flag enabled and the lock held, any migration failure —
in particular an unreachable legacy source — is fatal to process startup
(non-zero exit); with the flag disabled the same failure has no effect:
the coordinator takes no action and startup continues. -/
theorem migration_failure_fatal_iff_flag (cfg : MigConfig) (env : MigEnv)
    (src : List LegacyAccount) (tgt : List TargetAccount) :
    (cfg.flag = true → cfg.lockAcquired = true → cfg.sourceReachable = false →
      runCoordinator cfg env src tgt = .migrationFailed .sourceUnreachable ∧
      startupExitCode (runCoordinator cfg env src tgt) ≠ 0) ∧
    (∀ e, cfg.flag = true → cfg.lockAcquired = true →
      runMigration cfg env src tgt = .error e →
      startupExitCode (runCoordinator cfg env src tgt) ≠ 0) ∧
    (cfg.flag = false →
      runCoordinator cfg env src tgt = .disabled ∧
      startupExitCode (runCoordinator cfg env src tgt) = 0) := by
  refine ⟨fun hf hl hs => ?_, fun e hf hl hm => ?_, fun hf => ?_⟩
  · simp [runCoordinator, runMigration, startupExitCode, hf, hl, hs]
  · simp [runCoordinator, startupExitCode, hf, hl, hm]
  · simp [runCoordinator, startupExitCode, hf]

/-- Witness for C4: a concrete unreachable-source failure is fatal with the
flag on and inert with the flag off. -/
theorem migration_failure_fatal_iff_flag_witness :
    (runCoordinator { flag := true, lockAcquired := true, sourceReachable := false }
        demoMigEnv [demoLegacy] [] = .migrationFailed .sourceUnreachable ∧
      startupExitCode
        (runCoordinator { flag := true, lockAcquired := true, sourceReachable := false }
          demoMigEnv [demoLegacy] []) ≠ 0) ∧
    (runCoordinator { flag := false, lockAcquired := true, sourceReachable := false }
        demoMigEnv [demoLegacy] [] = .disabled ∧
      startupExitCode
        (runCoordinator { flag := false, lockAcquired := true, sourceReachable := false }
          demoMigEnv [demoLegacy] []) = 0) :=
  ⟨(migration_failure_fatal_iff_flag _ demoMigEnv [demoLegacy] []).1 rfl rfl rfl,
   (migration_failure_fatal_iff_flag _ demoMigEnv [demoLegacy] []).2.2 rfl⟩

/-! ### Claim C5 -/

theorem copyAccounts_error_of_unresolved (env : MigEnv) (a : LegacyAccount)
    (hm : migrateAccount env a = none) :
    ∀ src : List LegacyAccount, a ∈ src → ∀ tgt,
      copyAccounts env src tgt = .error .mappingUnresolved := by
  intro src
  induction src with
  | nil => intro ha; simp at ha
  | cons b rest ih =>
      intro ha tgt
      rcases List.mem_cons.mp ha with heq | hmem
      · subst heq
        simp [copyAccounts, hm]
      · cases hb : migrateAccount env b with
        | none => simp [copyAccounts, hb]
        | some t =>
            simp only [copyAccounts, hb]
            exact ih hmem _

/-- **C5.** User-mapping resolution is the two-step precedence function: a
mapped external user id yields the mapped local id in the target row; an
unmapped one yields the administrative account's id; and when no
administrative account resolves, the mapping step fails, failing the
entity-type copy and (flag set, lock held, source reachable) the whole
migration. -/
theorem user_mapping_resolution (env : MigEnv) (a : LegacyAccount) :
    (∀ uid, lookupA a.userIdExt env.userMapping = some uid →
      migrateAccount env a = some
        { cookieId := a.cookieId, userId := uid,
          credentials := encrypt env.encKey (credFields a),
          status := a.status }) ∧
    (lookupA a.userIdExt env.userMapping = none →
      ∀ aid, env.adminId = some aid →
        migrateAccount env a = some
          { cookieId := a.cookieId, userId := aid,
            credentials := encrypt env.encKey (credFields a),
            status := a.status }) ∧
    (lookupA a.userIdExt env.userMapping = none → env.adminId = none →
      migrateAccount env a = none ∧
      ∀ (src : List LegacyAccount) (tgt : List TargetAccount), a ∈ src →
        copyAccounts env src tgt = .error .mappingUnresolved ∧
        ∀ cfg : MigConfig, cfg.flag = true → cfg.lockAcquired = true →
          cfg.sourceReachable = true →
          runCoordinator cfg env src tgt = .migrationFailed .mappingUnresolved) := by
  refine ⟨fun uid h => ?_, fun h aid ha => ?_, fun h ha => ?_⟩
  · simp [migrateAccount, resolveUser, h]
  · simp [migrateAccount, resolveUser, h, ha]
  · have hm : migrateAccount env a = none := by
      simp [migrateAccount, resolveUser, h, ha]
    refine ⟨hm, fun src tgt hsrc => ?_⟩
    have hcopy := copyAccounts_error_of_unresolved env a hm src hsrc tgt
    refine ⟨hcopy, fun cfg hf hl hs => ?_⟩
    simp [runCoordinator, runMigration, hf, hl, hs, hcopy]

/-- Witness for C5: the three precedence branches at concrete inputs —
a mapped account keeps its mapped owner, an unmapped one falls back to the
administrative id, and with no administrative account the copy and the
coordinator fail. -/
theorem user_mapping_resolution_witness :
    (migrateAccount demoMigEnv { demoLegacy with userIdExt := "uuid-1" }).map
        TargetAccount.userId = some 7 ∧
    (migrateAccount demoMigEnv demoLegacy).map TargetAccount.userId = some 1 ∧
    copyAccounts { demoMigEnv with adminId := none } [demoLegacy] [] =
      .error .mappingUnresolved ∧
    runCoordinator { flag := true, lockAcquired := true, sourceReachable := true }
        { demoMigEnv with adminId := none } [demoLegacy] [] =
      .migrationFailed .mappingUnresolved := by
  have h1 := (user_mapping_resolution demoMigEnv
    { demoLegacy with userIdExt := "uuid-1" }).1 7 rfl
  have h2 := (user_mapping_resolution demoMigEnv demoLegacy).2.1 rfl 1 rfl
  have h3 := ((user_mapping_resolution { demoMigEnv with adminId := none }
    demoLegacy).2.2 rfl rfl).2 [demoLegacy] [] (List.mem_singleton.mpr rfl)
  exact ⟨by rw [h1]; rfl, by rw [h2]; rfl, h3.1, h3.2 _ rfl rfl rfl⟩

/-! ### Claim C9 -/

/-- **C9.** Every migrated account's credentials column is the encrypted
envelope: it never equals any of the plaintext token values, and decrypting
it with the configured key reproduces the original credential fields
exactly. -/
theorem credentials_encrypted_roundtrip (env : MigEnv) (a : LegacyAccount)
    (t : TargetAccount) (h : migrateAccount env a = some t) :
    (∀ p ∈ credFields a, t.credentials ≠ p.2) ∧
    decrypt env.encKey t.credentials = some (credFields a) := by
  have hcred : t.credentials = encrypt env.encKey (credFields a) := by
    unfold migrateAccount at h
    cases hr : resolveUser env a.userIdExt with
    | none => rw [hr] at h; exact absurd h (by simp)
    | some uid =>
        rw [hr, Option.map_some'] at h
        obtain rfl := Option.some.inj h
        rfl
  rw [hcred]
  exact ⟨fun p hp => encrypt_ne_plaintext env.encKey hp, decrypt_encrypt ..⟩

/-- The target row the demo account migrates to. -/
def demoTarget : TargetAccount :=
  match migrateAccount demoMigEnv demoLegacy with
  | some t => t
  | none => { cookieId := "", userId := 0, credentials := "", status := "" }

/-- Witness for C9 at a concrete account and key. -/
theorem credentials_encrypted_roundtrip_witness :
    (∀ p ∈ credFields demoLegacy, demoTarget.credentials ≠ p.2) ∧
    decrypt demoMigEnv.encKey demoTarget.credentials =
      some (credFields demoLegacy) :=
  credentials_encrypted_roundtrip demoMigEnv demoLegacy demoTarget rfl

end AntiHub
